import Mathlib

set_option maxRecDepth 4000

/-!
Verification of the z-Explorer generation orchestration pipeline.

Shallow embedding of `src/z_explorer/core/generator.py`,
`src/z_explorer/models/prompt_vars.py` and the engine-residency logic of
`src/z_explorer/llm_provider.py` / `src/z_explorer/image_generator.py`.

Python strings are modelled as `List Char`.  External collaborators (the
text engine, the image engine, the variable-store file system and the
random source) are modelled by an `Env` record of oracles indexed by call
counters; a Python exception raised by a collaborator is an `Except.error`
value of the corresponding oracle.  Module imports are assumed to succeed.
Progress events are modelled structurally (stage plus the semantically
relevant payload fields); the human-readable message formatting and the
numeric progress percentages of the source are presentation only and are
not part of the model.
-/

namespace ZExplorer

/-- Python strings as lists of characters. -/
abbrev Str := List Char

/-- Build a `Str` from a Lean string literal. -/
def str (s : String) : Str := s.data

/-- The character class of the variable-token regex (ASCII letters,
digits, underscore, hyphen, slash) in
`_substitute_variables` (generator.py line 63). -/
def isVarChar (c : Char) : Bool :=
  c.isAlpha || c.isDigit || c = '_' || c = '-' || c = '/'

/-- Python `str.strip()` of whitespace (both ends). -/
def stripStr (s : Str) : Str :=
  ((s.dropWhile Char.isWhitespace).reverse.dropWhile Char.isWhitespace).reverse

/-- Python `str.strip(c)` for a single character `c` (both ends). -/
def stripChar (c : Char) (s : Str) : Str :=
  ((s.dropWhile (· = c)).reverse.dropWhile (· = c)).reverse

/-- Locate the first occurrence of `pat` in `s`, returning the text before
and after it.  This is the search underlying Python's `in`,
`split(pat, 1)` and `replace(pat, new, 1)`. -/
def splitFirst (pat : Str) : Str → Option (Str × Str)
  | [] => if pat.isPrefixOf ([] : Str) then some ([], []) else none
  | c :: rest =>
    if pat.isPrefixOf (c :: rest) then some ([], (c :: rest).drop pat.length)
    else
      match splitFirst pat rest with
      | some (pre, post) => some (c :: pre, post)
      | none => none

/-- Python `s.replace(old, new, 1)`: replace the first occurrence of
`old`, or return `s` unchanged when `old` does not occur. -/
def replaceFirst (old new s : Str) : Str :=
  match splitFirst old s with
  | some (pre, post) => pre ++ new ++ post
  | none => s

/-- Greedy-with-backtracking end position of a token match: the largest
`k ≥ 1` such that positions `k` and `k+1` of the var-char run `r` are both
underscores (these two underscores close the token).  Mirrors how the
backtracking token regex (double underscore, one or more class
characters, double underscore) settles the extent of the repetition. -/
def tokenEnd (r : Str) : Option Nat :=
  ((List.range r.length).filter
    (fun k => decide (1 ≤ k) && (r[k]? == some '_') && (r[k + 1]? == some '_'))).getLast?

/-- Try to match the token regex at the start of `s`; on success return
the matched token and the remainder of the string after it. -/
def matchTokenAt (s : Str) : Option (Str × Str) :=
  match s with
  | '_' :: '_' :: t =>
    let r := t.takeWhile isVarChar
    match tokenEnd r with
    | some k => some ('_' :: '_' :: r.take (k + 2), t.drop (k + 2))
    | none => none
  | _ => none

/-- Fuel-driven scan for `re.findall` of the token pattern: leftmost,
non-overlapping matches.  A fuel of `s.length` suffices because every
step consumes at least one character. -/
def findTokensAux : Nat → Str → List Str
  | 0, _ => []
  | _, [] => []
  | Nat.succ n, c :: rest =>
    match matchTokenAt (c :: rest) with
    | some (tok, after) => tok :: findTokensAux n after
    | none => findTokensAux n rest

/-- `re.findall` of the token pattern on `s` (generator.py lines 63-64). -/
def findTokens (s : Str) : List Str := findTokensAux s.length s

end ZExplorer

namespace ZExplorer

/-! ## Variable store (models/prompt_vars.py)

The store is modelled at the level the pipeline observes it: an
association list from file-name stem to file content.  `save_prompt_var`
writes `<name>.md`; `load_prompt_vars` turns each stored file into a
`PromptVars` entry keyed by the token `__<stem>__`. -/

/-- prompt_vars.py `PromptVars` (the fields the pipeline reads). -/
structure PromptVars where
  description : Option Str := none
  values : List Str := []
deriving DecidableEq, Repr

/-- The dictionary returned by `load_prompt_vars`, as an association
list from token identifier to variable. -/
abbrev VarMap := List (Str × PromptVars)

/-- File-stem to file-content association list. -/
abbrev Store := List (Str × Str)

/-- Dictionary lookup (`match in prompt_vars` / `prompt_vars[match]`). -/
def lookupVar (m : VarMap) (k : Str) : Option PromptVars :=
  (m.find? (fun p => p.1 == k)).map (fun p => p.2)

/-- Set a key in an association list, overwriting an existing binding. -/
def setAssoc {β : Type} (m : List (Str × β)) (k : Str) (v : β) : List (Str × β) :=
  if (m.find? (fun p => p.1 == k)).isSome then
    m.map (fun p => if p.1 == k then (k, v) else p)
  else m ++ [(k, v)]

/-- Python `dict.update`: entries of `fresh` override entries of `m`. -/
def updateMap (m fresh : VarMap) : VarMap :=
  fresh.foldl (fun acc p => setAssoc acc p.1 p.2) m

/-- The newline character used by the store's file format. -/
def nl : Char := '\n'

/-- Python `"\\n".join(lines)`. -/
def joinLines : List Str → Str
  | [] => []
  | [l] => l
  | l :: l2 :: rest => l ++ nl :: joinLines (l2 :: rest)

/-- File content written by `save_prompt_var` (prompt_vars.py lines
39-50): an optional `# description` comment line followed by one value
per line, joined with newlines. -/
def saveContent (description : Str) (values : List Str) : Str :=
  joinLines
    ((if description.isEmpty then [] else [str "# " ++ description]) ++ values)

/-- `save_prompt_var` (prompt_vars.py lines 22-52) on the store model:
write (or overwrite) the file `<variableName>.md`. -/
def savePromptVar (store : Store) (variableName description : Str)
    (values : List Str) : Store :=
  setAssoc store variableName (saveContent description values)

/-- Split a string at newline characters (Python line iteration). -/
def splitLines : Str → List Str
  | [] => [[]]
  | c :: rest =>
    if c = nl then [] :: splitLines rest
    else
      match splitLines rest with
      | l :: ls => (c :: l) :: ls
      | [] => [[c]]

/-- Parse one stored file the way `load_prompt_vars` reads it
(prompt_vars.py lines 90-110): strip each line, drop blank lines, lines
starting with `#` form the description, the rest are the values. -/
def parseVarFile (content : Str) : PromptVars :=
  let ls := ((splitLines content).map stripStr).filter (fun l => !l.isEmpty)
  let descLines := ls.filter (fun l => l.head? == some '#')
  let values := ls.filter (fun l => l.head? != some '#')
  { description :=
      if descLines.isEmpty then none else some (joinLines descLines)
    values := values }

/-- `load_prompt_vars` (prompt_vars.py lines 55-142) on the store model:
each stored file `<stem>.md` yields the entry `__<stem>__`. -/
def storeVars (store : Store) : VarMap :=
  store.map (fun p => (str "__" ++ p.1 ++ str "__", parseVarFile p.2))

/-! ## Progress events and the external environment -/

/-- A progress event, keeping the stage and the semantically relevant
payload; the formatted human-readable message of the source carries the
same content. -/
structure Event where
  stage : String
  tok : Option Str := none
  value : Option Str := none
  path : Option Str := none
deriving DecidableEq, Repr

/-- Event carrying only a stage. -/
def evStage (s : String) : Event := { stage := s }

/-- Event about a token (var_missing, var_generating, var_saved, and the
per-variable error events). -/
def evTok (s : String) (tok : Str) : Event := { stage := s, tok := some tok }

/-- The `substituting` event, naming the token and the chosen value. -/
def evSubst (tok repl : Str) : Event :=
  { stage := "substituting", tok := some tok, value := some repl }

/-- The `image_saved` event, naming the saved path. -/
def evSaved (path : Str) : Event := { stage := "image_saved", path := some path }

/-- Oracles for the external collaborators and the random source.  Each
fallible call is indexed by a per-oracle call counter; `Except.error e`
models the Python call raising an exception with text `e`, and an
`Option String` oracle models a call that returns nothing on success. -/
structure Env where
  /-- Random source: `random.choice` draws index `rng k % len`, and
  `random.randint(0, 2**32 - 1)` draws `rng k % 2^32`. -/
  rng : Nat → Nat
  /-- `llm_provider.generate_prompt_variable_values(name, context)`.
  Returns the generated values; the empty list models its fail-soft
  `return []` path. -/
  genValues : Nat → Str → Str → Except String (List Str)
  /-- Whether the k-th `save_prompt_var` call raises. -/
  saveVar : Nat → Option String
  /-- Whether the k-th `load_prompt_vars` call raises. -/
  loadVars : Nat → Option String
  /-- `llm_provider.enhance_prompt(prompt, instruction)`. -/
  enhanceLLM : Nat → Str → Str → Except String Str
  /-- Whether the k-th `llm_provider.unload_model` call raises. -/
  unloadErr : Nat → Option String
  /-- `image_generator.generate_image(prompt, width, height, seed)`;
  returns the output path. -/
  genImage : Nat → Str → Nat → Nat → Nat → Except String Str
  /-- Number of diffusion-step callbacks the k-th image call performs. -/
  imgSteps : Nat → Nat

/-- Mutable state threaded through a run: the variable store, the
emitted events in order, and the call counters of the oracles. -/
structure St where
  store : Store
  events : List Event := []
  rngK : Nat := 0
  genVK : Nat := 0
  saveK : Nat := 0
  loadK : Nat := 0
  enhK : Nat := 0
  unloadK : Nat := 0
  imgK : Nat := 0
deriving DecidableEq, Repr

/-- Fresh state over a given store. -/
def St.init (store : Store) : St := { store := store }

/-- `_emit` (generator.py lines 23-40): append one event to the stream. -/
def pushEvent (st : St) (e : Event) : St := { st with events := st.events ++ [e] }

/-- `random.choice(values)` for non-empty `values`. -/
def pyChoice (env : Env) (st : St) (values : List Str) : Str × St :=
  (values.getD (env.rng st.rngK % values.length) [],
   { st with rngK := st.rngK + 1 })

/-! ## Request and result records (core/types.py) -/

/-- core/types.py `GenerationRequest` (validation bounds such as
`1 ≤ count ≤ 100` are pydantic constraints; theorems that need them take
them as hypotheses). -/
structure GenerationRequest where
  prompt : Str
  count : Nat := 1
  width : Nat := 1024
  height : Nat := 1024
  seed : Option Nat := none
  enhance : Bool := false
  enhancement_instruction : Str := []
deriving DecidableEq, Repr

/-- core/types.py `GenerationResult`. -/
structure GenerationResult where
  success : Bool := false
  images : List Str := []
  final_prompts : List Str := []
  errors : List String := []
  seeds_used : List Nat := []
deriving DecidableEq, Repr

end ZExplorer

namespace ZExplorer

/-! ## Variable substitution (generator.py `_substitute_variables`) -/

/-- The body of one iteration of the match loop of
`_substitute_variables` (generator.py lines 74-111).  `prompt0` is the
original prompt argument, passed verbatim as generation context (line
92); `acc` is the string being rewritten.  Inside the missing-variable
branch, any oracle failure reproduces the source's `try`/`except`: the
remaining statements of the block are skipped and one `error` event is
emitted. -/
def substOne (env : Env) (prompt0 : Str) (generateMissing : Bool)
    (tok : Str) (acc : Str) (vars : VarMap) (st : St) : Str × VarMap × St :=
  match lookupVar vars tok with
  | some v =>
    if v.values.isEmpty then (acc, vars, st)
    else
      let c := pyChoice env st v.values
      (replaceFirst tok c.1 acc, vars, pushEvent c.2 (evSubst tok c.1))
  | none =>
    if generateMissing then
      let raw := stripChar '_' tok
      let st1 := pushEvent st (evTok "var_missing" tok)
      let st2 := pushEvent st1 (evTok "var_generating" tok)
      let k := st2.genVK
      let st3 := { st2 with genVK := k + 1 }
      match env.genValues k raw prompt0 with
      | .error _ => (acc, vars, pushEvent st3 (evTok "error" tok))
      | .ok values =>
        if values.isEmpty then (acc, vars, st3)
        else
          let st4 := pushEvent st3 (evTok "var_saved" tok)
          let sk := st4.saveK
          let st5 := { st4 with saveK := sk + 1 }
          match env.saveVar sk with
          | some _ => (acc, vars, pushEvent st5 (evTok "error" tok))
          | none =>
            let st6 := { st5 with
              store := savePromptVar st5.store raw
                (str "Auto-generated values for " ++ raw) values }
            let c := pyChoice env st6 values
            let acc2 := replaceFirst tok c.1 acc
            let st7 := pushEvent c.2 (evSubst tok c.1)
            let lk := st7.loadK
            let st8 := { st7 with loadK := lk + 1 }
            match env.loadVars lk with
            | some _ => (acc2, vars, pushEvent st8 (evTok "error" tok))
            | none => (acc2, updateMap vars (storeVars st8.store), st8)
    else (acc, vars, st)

/-- The loop over the found matches, one `substOne` per match. -/
def substVarsGo (env : Env) (prompt0 : Str) (generateMissing : Bool) :
    List Str → Str → VarMap → St → Str × VarMap × St
  | [], acc, vars, st => (acc, vars, st)
  | tok :: ms, acc, vars, st =>
    let r := substOne env prompt0 generateMissing tok acc vars st
    substVarsGo env prompt0 generateMissing ms r.1 r.2.1 r.2.2

/-- `_substitute_variables` (generator.py lines 43-112): find all token
matches and resolve them in order, returning the rewritten prompt, the
(possibly refreshed) variable mapping and the threaded state. -/
def substVars (env : Env) (prompt : Str) (vars : VarMap)
    (generateMissing : Bool) (st : St) : Str × VarMap × St :=
  let found := findTokens prompt
  if found.isEmpty then (prompt, vars, st)
  else substVarsGo env prompt generateMissing found prompt vars st

/-! ## Enhancement step (generator.py `_enhance_prompt`) -/

/-- `_enhance_prompt` (generator.py lines 115-141): emit `enhancing`,
call the text engine; on success emit `enhanced` and return the
engine's text, on failure emit `error` and return the argument
unchanged. -/
def enhancePrompt (env : Env) (prompt instruction : Str) (st : St) : Str × St :=
  let st1 := pushEvent st (evStage "enhancing")
  let k := st1.enhK
  let st2 := { st1 with enhK := k + 1 }
  match env.enhanceLLM k prompt instruction with
  | .ok enhanced => (enhanced, pushEvent st2 (evStage "enhanced"))
  | .error _ => (prompt, pushEvent st2 (evStage "error"))

/-! ## The generation workflow (generator.py `generate`) -/

/-- The `" > "` separator of the embedded enhancement syntax. -/
def enhSep : Str := str " > "

/-- The directive appended before an enhancement call when the
instruction is non-empty (generator.py line 217). -/
def directiveSep : Str := str "\n\nEnhancement instruction: "

/-- Resolution of the `" > "`-delimited enhancement syntax (generator.py
lines 180-190): whenever the separator occurs in the raw prompt, split
at its first occurrence into stripped (base, instruction) and enable
enhancement; otherwise pass the request's explicit fields through. -/
def parseEnhancement (prompt instruction : Str) (enhance : Bool) :
    Str × Str × Bool :=
  match splitFirst enhSep prompt with
  | some (pre, post) => (stripStr pre, stripStr post, true)
  | none => (prompt, instruction, enhance)

/-- One `load_prompt_vars()` call at the workflow level: fallible, and
on success returns the mapping read from the current store. -/
def loadVarsE (env : Env) (st : St) : Except (String × St) (VarMap × St) :=
  let k := st.loadK
  let st1 := { st with loadK := k + 1 }
  match env.loadVars k with
  | some e => .error (e, st1)
  | none => .ok (storeVars st1.store, st1)

/-- One iteration of phase 1 (generator.py lines 200-224) at index `i`:
substitute variables, on the first iteration re-read the store
(`prompt_vars = load_prompt_vars()`, line 211, a phase-fatal point),
then apply enhancement if requested, yielding one prepared prompt. -/
def phase1Step (env : Env) (base instruction : Str) (hasEnhancement : Bool)
    (i : Nat) (vars : VarMap) (st : St) :
    Except (String × St) (Str × VarMap × St) :=
  let s0 := substVars env base vars true st
  match (if i = 0 then loadVarsE env s0.2.2 else .ok (s0.2.1, s0.2.2)) with
  | .error e => .error e
  | .ok (vars2, st2) =>
    let e0 :=
      if hasEnhancement then
        let full :=
          if instruction.isEmpty then s0.1 else s0.1 ++ directiveSep ++ instruction
        enhancePrompt env full instruction st2
      else (s0.1, st2)
    .ok (e0.1, vars2, e0.2)

/-- The phase-1 loop: one `phase1Step` per requested image. -/
def phase1Go (env : Env) (base instruction : Str) (hasEnhancement : Bool) :
    Nat → Nat → VarMap → St → Except (String × St) (List Str × VarMap × St)
  | _, 0, vars, st => .ok ([], vars, st)
  | i, Nat.succ r, vars, st =>
    match phase1Step env base instruction hasEnhancement i vars st with
    | .error e => .error e
    | .ok (p, vars2, st2) =>
      match phase1Go env base instruction hasEnhancement (i + 1) r vars2 st2 with
      | .error e => .error e
      | .ok (ps, vars3, st3) => .ok (p :: ps, vars3, st3)

/-- `random.randint(0, 2**32 - 1)` for a randomized per-image seed, or
the request's explicit seed (generator.py line 267). -/
def pickSeed (env : Env) (req : GenerationRequest) (st : St) : Nat × St :=
  match req.seed with
  | some s0 => (s0, st)
  | none => (env.rng st.rngK % 2 ^ 32, { st with rngK := st.rngK + 1 })

/-- The per-step progress callback (generator.py lines 271-278): the
image engine invokes it once per diffusion step, emitting one
`diffusion_step` event each time. -/
def emitSteps : Nat → St → St
  | 0, st => st
  | Nat.succ n, st => emitSteps n (pushEvent st (evStage "diffusion_step"))

/-- One iteration of phase 2 (generator.py lines 244-308): emit
`final_prompt` and `generating_image`, pick the seed (the request's seed
when given — identically for every image of the batch — else a fresh
random 32-bit value), run the image engine (whose step callback emits
`diffusion_step` events); on success append the path and the seed and
emit `image_saved`, on failure append an error string and emit `error`.
The sidecar prompt text file written on success is best-effort and
unobservable in the model. -/
def phase2Step (env : Env) (req : GenerationRequest) (i : Nat) (p : Str)
    (res : GenerationResult) (st : St) : GenerationResult × St :=
  let st2 := pushEvent (pushEvent st { stage := "final_prompt", value := some p })
    (evStage "generating_image")
  let s := pickSeed env req st2
  let k := s.2.imgK
  let st3 := emitSteps (env.imgSteps k) { s.2 with imgK := k + 1 }
  match env.genImage k p req.width req.height s.1 with
  | .ok path =>
    ({ res with images := res.images ++ [path],
                seeds_used := res.seeds_used ++ [s.1] },
     pushEvent st3 (evSaved path))
  | .error e =>
    ({ res with errors := res.errors ++ ["Image " ++ toString (i + 1) ++ " failed: " ++ e] },
     pushEvent st3 (evStage "error"))

/-- Phase 2: one `phase2Step` per prepared prompt, in order; a failed
image never aborts the loop, and no statement of the loop can escape
the workflow's `try`. -/
def phase2Go (env : Env) (req : GenerationRequest) :
    Nat → List Str → GenerationResult → St → GenerationResult × St
  | _, [], res, st => (res, st)
  | i, p :: ps, res, st =>
    let r := phase2Step env req i p res st
    phase2Go env req (i + 1) ps r.1 r.2

/-- The LLM-unload block before phase 2 (generator.py lines 228-235),
entered when the batch has several images or used enhancement: the
unload call may raise, in which case the exception is swallowed and the
`llm_unloaded` event is skipped. -/
def unloadStep (env : Env) (cond : Bool) (st : St) : St :=
  if cond then
    let k := st.unloadK
    let st2 := { st with unloadK := k + 1 }
    match env.unloadErr k with
    | some _ => st2
    | none => pushEvent st2 (evStage "llm_unloaded")
  else st

/-- The body of the workflow's top-level `try` (generator.py lines
172-320).  Every fallible statement of the body precedes the assignment
of `result.final_prompts` (the two `load_prompt_vars` calls), so a
phase-fatal escape always leaves the result in its initial state; the
`Except.error` payload carries the exception text and the state.  The
LLM-unload block (lines 229-235) swallows its own exceptions, skipping
the `llm_unloaded` event when the unload raised. -/
def generateBody (env : Env) (req : GenerationRequest) (st : St) :
    Except (String × St) (GenerationResult × St) :=
  match loadVarsE env st with
  | .error e => .error e
  | .ok (vars, st1) =>
    let st2 := pushEvent st1 (evStage "loading_vars")
    let pe := parseEnhancement req.prompt req.enhancement_instruction req.enhance
    let st3 := pushEvent st2 (evStage "phase1_complete")
    match phase1Go env pe.1 pe.2.1 pe.2.2 0 req.count vars st3 with
    | .error e => .error e
    | .ok (prompts, _, st4) =>
      let st5 := unloadStep env (req.count > 1 || pe.2.2) st4
      let st6 := pushEvent st5 (evStage "loading_image_model")
      let r2 := phase2Go env req 0 prompts { final_prompts := prompts } st6
      .ok ({ r2.1 with success := !r2.1.images.isEmpty },
           pushEvent r2.2 (evStage "complete"))

/-- `generate` (generator.py lines 144-326): emit `starting`, run the
two-phase body, and convert a phase-fatal exception into an appended
error string plus a final `error` event on the partial result (which at
every fatal point is still the initial result). -/
def generate (env : Env) (req : GenerationRequest) (st0 : St) :
    GenerationResult × St :=
  let st := pushEvent st0 (evStage "starting")
  match generateBody env req st with
  | .ok r => r
  | .error e => ({ success := false, errors := [e.1] }, pushEvent e.2 (evStage "error"))

end ZExplorer

namespace ZExplorer

/-! ## Engine residency (llm_provider.py / image_generator.py)

The two process-wide slots are `llm_provider._model` and
`image_generator._pipeline`, modelled as two booleans (populated or
empty).  `_load_model` (llm_provider.py lines 69-191) returns at once if
its slot is populated, otherwise unloads the image pipeline if that one
is populated and only then attempts its own load, which may raise and
leave the slot empty.  `_load_pipeline` (image_generator.py lines
306-381) is symmetric via `_unload_llm_if_needed`.  `generate_text`,
`enhance_prompt` and `generate_prompt_variable_values` all enter through
`_load_model`; `generate_image` enters through `_load_pipeline`; the
rest of those operations never touches a slot. -/

/-- The two residency slots. -/
structure Residency where
  llm : Bool := false
  pipeline : Bool := false
deriving DecidableEq, Repr

/-- Operations that load or use an engine.  The `ok` flag on the loading
operations says whether the underlying engine load succeeds or raises. -/
inductive ResOp where
  | generateText (ok : Bool)
  | enhance (ok : Bool)
  | genVarValues (ok : Bool)
  | synthesize (ok : Bool)
  | unloadModel
  | unloadPipeline
deriving DecidableEq, Repr

/-- Micro-step trace of `_load_model`: the states after each slot
assignment.  If the slot is already populated the call is a no-op;
otherwise the sibling slot is emptied first, and the slot is populated
only if the load succeeds. -/
def loadModelTrace (ok : Bool) (s : Residency) : List Residency :=
  if s.llm then [s]
  else
    let s1 : Residency := { s with pipeline := false }
    if ok then [s1, { s1 with llm := true }] else [s1]

/-- Micro-step trace of `_load_pipeline`, symmetric to
`loadModelTrace`. -/
def loadPipelineTrace (ok : Bool) (s : Residency) : List Residency :=
  if s.pipeline then [s]
  else
    let s1 : Residency := { s with llm := false }
    if ok then [s1, { s1 with pipeline := true }] else [s1]

/-- The micro-step state trace of one operation. -/
def runOp : ResOp → Residency → List Residency
  | .generateText ok, s => loadModelTrace ok s
  | .enhance ok, s => loadModelTrace ok s
  | .genVarValues ok, s => loadModelTrace ok s
  | .synthesize ok, s => loadPipelineTrace ok s
  | .unloadModel, s => [{ s with llm := false }]
  | .unloadPipeline, s => [{ s with pipeline := false }]

/-- All states visited by a sequence of operations, in order; each
operation continues from the last state of the previous one. -/
def runOps : List ResOp → Residency → List Residency
  | [], _ => []
  | op :: ops, s =>
    let tr := runOp op s
    tr ++ runOps ops (tr.getLastD s)

/-- At most one engine resident. -/
def exclusive (s : Residency) : Bool := !(s.llm && s.pipeline)

end ZExplorer

namespace ZExplorer

/-! ## Residency invariant -/

/-- A benign concrete environment used by concrete runs below: all
store and engine calls succeed, generation returns one value, the
random source always draws 0. -/
def envOk : Env where
  rng := fun _ => 0
  genValues := fun _ _ _ => .ok [str "vv"]
  saveVar := fun _ => none
  loadVars := fun _ => none
  enhanceLLM := fun _ _ _ => .ok (str "E")
  unloadErr := fun _ => none
  genImage := fun k _ _ _ _ => .ok (str ("img" ++ toString k ++ ".png"))
  imgSteps := fun _ => 0

/-- Like `envOk`, but value generation fail-softly returns no values. -/
def envNoValues : Env := { envOk with genValues := fun _ _ _ => .ok [] }

/-- Like `envOk`, but every image synthesis call raises. -/
def envImgFail : Env :=
  { envOk with genImage := fun _ _ _ _ _ => .error "GPU out of memory" }

/-- Like `envOk`, but every enhancement call raises. -/
def envEnhFail : Env :=
  { envOk with enhanceLLM := fun _ _ _ => .error "LLM down" }

/-- A one-image request whose prompt is a plain word. -/
def reqPlain : GenerationRequest := { prompt := str "a", count := 1 }

/-- A one-image request with explicit enhancement fields and no
embedded separator. -/
def reqExplicitEnh : GenerationRequest :=
  { prompt := str "a", count := 1, enhance := true,
    enhancement_instruction := str "b" }

/-- A request with `enhance=false` whose prompt embeds the `" > "`
syntax, with the only token after the separator. -/
def reqSepToken : GenerationRequest :=
  { prompt := str "a > __foo__", count := 1, enhance := false }

/-- Replace, in order, each `(token, value)` pair by one
`replace(token, value, 1)` pass — the cumulative effect of the
substitution loop on the prompt string. -/
def replacePairs (p : Str) (prs : List (Str × Str)) : Str :=
  prs.foldl (fun acc pr => replaceFirst pr.1 pr.2 acc) p

/-- A stored value that survives the save/load round trip verbatim:
non-empty, unchanged by stripping, not a `#` comment line, and free of
the line separator. -/
def wellFormedValue (v : Str) : Bool :=
  !v.isEmpty && (stripStr v == v) && (v.head? != some '#') && !v.contains nl

/-- Every micro-state of any single operation preserves exclusivity. -/
theorem runOp_exclusive (op : ResOp) (s : Residency) (h : exclusive s = true) :
    (runOp op s).all exclusive = true := by
  rcases s with ⟨l, p⟩
  revert h
  cases op with
  | generateText ok => cases ok <;> cases l <;> cases p <;> decide
  | enhance ok => cases ok <;> cases l <;> cases p <;> decide
  | genVarValues ok => cases ok <;> cases l <;> cases p <;> decide
  | synthesize ok => cases ok <;> cases l <;> cases p <;> decide
  | unloadModel => cases l <;> cases p <;> decide
  | unloadPipeline => cases l <;> cases p <;> decide

/-- An operation's trace is never empty. -/
theorem runOp_ne_nil (op : ResOp) (s : Residency) : runOp op s ≠ [] := by
  rcases s with ⟨l, p⟩
  cases op with
  | generateText ok => cases ok <;> cases l <;> cases p <;> decide
  | enhance ok => cases ok <;> cases l <;> cases p <;> decide
  | genVarValues ok => cases ok <;> cases l <;> cases p <;> decide
  | synthesize ok => cases ok <;> cases l <;> cases p <;> decide
  | unloadModel => cases l <;> cases p <;> decide
  | unloadPipeline => cases l <;> cases p <;> decide

/-- The default of `getLastD` is irrelevant on a non-empty list: the
result is a member. -/
theorem getLastD_mem_of_ne_nil {α : Type} (l : List α) (d : α) (h : l ≠ []) :
    l.getLastD d ∈ l := by
  rw [List.getLastD_eq_getLast?, List.getLast?_eq_getLast l h]
  simp [List.getLast_mem]

/-- All states visited by a sequence of operations from an exclusive
state remain exclusive. -/
theorem runOps_exclusive :
    ∀ (ops : List ResOp) (s : Residency), exclusive s = true →
    ∀ t ∈ runOps ops s, exclusive t = true := by
  intro ops
  induction ops with
  | nil => intro s _ t ht; simp [runOps] at ht
  | cons op rest ih =>
    intro s h t ht
    simp only [runOps, List.mem_append] at ht
    rcases ht with h1 | h2
    · exact List.all_eq_true.mp (runOp_exclusive op s h) t h1
    · refine ih _ ?_ t h2
      exact List.all_eq_true.mp (runOp_exclusive op s h) _
        (getLastD_mem_of_ne_nil _ _ (runOp_ne_nil op s))

/-- C3: in one process, for every sequence of operations that load or
use the text engine (generate text, enhance, generate variable values)
or the image engine (synthesize), with unloads interleaved arbitrarily
and engine loads allowed to fail, no state reached from the initial
both-empty state — including the micro-states inside a load, after the
sibling slot is emptied — ever has both the text-engine slot (`_model`)
and the image-engine slot (`_pipeline`) populated: loading either engine
first unloads the other. -/
theorem residency_never_both_loaded (ops : List ResOp) :
    (({} : Residency) :: runOps ops {}).all exclusive = true := by
  rw [List.all_eq_true]
  intro t ht
  rcases List.mem_cons.mp ht with rfl | hmem
  · rfl
  · exact runOps_exclusive ops {} (by rfl) t hmem

/-! ## Substitution: token-free and empty-value cases -/

/-- Substitution is the identity when the token regex finds no match. -/
theorem substVars_nil (env : Env) (p : Str) (vars : VarMap)
    (gm : Bool) (st : St) (h : findTokens p = []) :
    substVars env p vars gm st = (p, vars, st) := by
  simp [substVars, h]

/-- C9: variable substitution on a prompt in which the token regex finds
no match returns the prompt unchanged, with the variable mapping, the
store and the event stream untouched — in particular no `substituting`
and no `var_missing` event is emitted. -/
theorem subst_token_free_identity (env : Env) (p : Str) (vars : VarMap)
    (gm : Bool) (st : St) (h : findTokens p = []) :
    substVars env p vars gm st = (p, vars, st) :=
  substVars_nil env p vars gm st h

/-- Witness for C9 on the concrete token-free prompt "a cute cat". -/
theorem subst_token_free_identity_witness :
    findTokens (str "a cute cat") = [] ∧
    substVars envOk (str "a cute cat") [] true (St.init []) =
      (str "a cute cat", [], St.init []) :=
  ⟨by decide, subst_token_free_identity envOk _ _ _ _ (by decide)⟩

/-- The per-match loop skips every match whose identifier is bound to an
empty value list, with no effect on the string, mapping or state. -/
theorem substVarsGo_empty_values (env : Env) (p0 : Str) (gm : Bool)
    (vars : VarMap) (tok : Str) (pv : PromptVars)
    (hl : lookupVar vars tok = some pv) (hv : pv.values = []) :
    ∀ (ms : List Str) (acc : Str) (st : St), (∀ t ∈ ms, t = tok) →
    substVarsGo env p0 gm ms acc vars st = (acc, vars, st) := by
  intro ms
  induction ms with
  | nil => intro acc st _; rfl
  | cons m rest ih =>
    intro acc st hms
    have hm : m = tok := hms m (by simp)
    subst hm
    have hrest : ∀ t ∈ rest, t = m := fun t htm => hms t (by simp [htm])
    have hso : substOne env p0 gm m acc vars st = (acc, vars, st) := by
      simp [substOne, hl, hv]
    simp only [substVarsGo, hso]
    exact ih acc st hrest

/-- C10: when a token's identifier is present in the mapping but bound
to an empty value list, substitution — even with missing-variable
generation enabled — leaves the prompt unchanged, emits no event, writes
nothing to the store, and never calls the value generator: the empty
entry shadows the missing-generation path. -/
theorem subst_empty_values_shadow (env : Env) (p : Str) (vars : VarMap)
    (st : St) (tok : Str) (pv : PromptVars)
    (h1 : lookupVar vars tok = some pv) (h2 : pv.values = [])
    (h3 : ∀ t ∈ findTokens p, t = tok) :
    substVars env p vars true st = (p, vars, st) := by
  by_cases hf : (findTokens p).isEmpty
  · simp [substVars, hf]
  · simp only [substVars, hf, if_false, Bool.false_eq_true]
    exact substVarsGo_empty_values env p true vars tok pv h1 h2 _ p st h3

/-- Witness for C10: `__animal__` is present with an empty value list,
missing generation is on, and the prompt passes through unchanged. -/
theorem subst_empty_values_shadow_witness :
    lookupVar [(str "__animal__", ({ values := [] } : PromptVars))]
      (str "__animal__") = some { values := [] } ∧
    substVars envOk (str "a __animal__ here")
      [(str "__animal__", { values := [] })] true (St.init []) =
      (str "a __animal__ here", [(str "__animal__", { values := [] })],
       St.init []) :=
  ⟨by decide,
   subst_empty_values_shadow envOk _ _ _ (str "__animal__") { values := [] }
     (by decide) rfl (by decide)⟩

end ZExplorer

namespace ZExplorer

/-! ## Result invariants of the workflow (C1, C2) -/

/-- A successful pass through the workflow body sets the success flag
from the image list at the terminal transition. -/
theorem generateBody_ok_success (env : Env) (req : GenerationRequest)
    (st : St) (r : GenerationResult × St)
    (h : generateBody env req st = .ok r) :
    r.1.success = !r.1.images.isEmpty := by
  unfold generateBody at h
  split at h
  · exact absurd h (by simp)
  · dsimp only at h
    split at h
    · exact absurd h (by simp)
    · injection h with h2
      subst h2
      rfl

/-- A phase-fatal escape of the workflow body returns the initial
(empty) result with the exception appended and a final error event. -/
theorem generate_error_result (env : Env) (req : GenerationRequest)
    (st0 : St) (e : String × St)
    (h : generateBody env req (pushEvent st0 (evStage "starting")) = .error e) :
    generate env req st0 =
      ({ success := false, errors := [e.1] }, pushEvent e.2 (evStage "error")) := by
  simp only [generate, h]

/-- C1: for every environment, request and starting state — including
runs that end in a phase-fatal error and return partial results — the
returned result satisfies `success = true` exactly when the image list
is non-empty. -/
theorem generate_success_iff_images (env : Env) (req : GenerationRequest)
    (st0 : St) :
    (generate env req st0).1.success =
      !(generate env req st0).1.images.isEmpty := by
  simp only [generate]
  cases h : generateBody env req (pushEvent st0 (evStage "starting")) with
  | error e => simp
  | ok r =>
    simpa using generateBody_ok_success env req (pushEvent st0 (evStage "starting")) r h

/-- Phase 1 collects exactly one prepared prompt per iteration. -/
theorem phase1Go_length (env : Env) (base instruction : Str)
    (hasEnhancement : Bool) :
    ∀ (r i : Nat) (vars : VarMap) (st : St) ps vars2 st2,
    phase1Go env base instruction hasEnhancement i r vars st = .ok (ps, vars2, st2) →
    ps.length = r := by
  intro r
  induction r with
  | zero =>
    intro i vars st ps vars2 st2 h
    simp only [phase1Go, Except.ok.injEq, Prod.mk.injEq] at h
    rw [← h.1]
    rfl
  | succ n ih =>
    intro i vars st ps vars2 st2 h
    simp only [phase1Go] at h
    split at h
    · exact absurd h (by simp)
    · split at h
      · exact absurd h (by simp)
      · next ps2 vars3 st3 heq =>
        simp only [Except.ok.injEq, Prod.mk.injEq] at h
        rw [← h.1]
        simp [ih _ _ _ _ _ _ heq]

/-- One phase-2 iteration never touches the prepared-prompt list and
appends a seed exactly when it appends an image. -/
theorem phase2Step_result (env : Env) (req : GenerationRequest) (i : Nat)
    (p : Str) (res : GenerationResult) (st : St) :
    (phase2Step env req i p res st).1.final_prompts = res.final_prompts ∧
    ((phase2Step env req i p res st).1.images.length =
        res.images.length + 1 ∧
      (phase2Step env req i p res st).1.seeds_used.length =
        res.seeds_used.length + 1 ∨
      (phase2Step env req i p res st).1.images = res.images ∧
      (phase2Step env req i p res st).1.seeds_used = res.seeds_used) := by
  unfold phase2Step
  dsimp only
  split
  · exact ⟨rfl, Or.inl ⟨by simp, by simp⟩⟩
  · exact ⟨rfl, Or.inr ⟨rfl, rfl⟩⟩

/-- Phase 2 never touches the prepared-prompt list of the result. -/
theorem phase2Go_final_prompts (env : Env) (req : GenerationRequest) :
    ∀ (ps : List Str) (i : Nat) (res : GenerationResult) (st : St),
    (phase2Go env req i ps res st).1.final_prompts = res.final_prompts := by
  intro ps
  induction ps with
  | nil => intro i res st; rfl
  | cons p rest ih =>
    intro i res st
    simp only [phase2Go]
    rw [ih]
    exact (phase2Step_result env req i p res st).1

/-- Phase 2 keeps the image and seed lists index-aligned. -/
theorem phase2Go_seed_balance (env : Env) (req : GenerationRequest) :
    ∀ (ps : List Str) (i : Nat) (res : GenerationResult) (st : St),
    res.seeds_used.length = res.images.length →
    (phase2Go env req i ps res st).1.seeds_used.length =
      (phase2Go env req i ps res st).1.images.length := by
  intro ps
  induction ps with
  | nil => intro i res st h; exact h
  | cons p rest ih =>
    intro i res st h
    simp only [phase2Go]
    apply ih
    rcases (phase2Step_result env req i p res st).2 with ⟨hi, hs⟩ | ⟨hi, hs⟩
    · rw [hi, hs, h]
    · rw [hi, hs, h]

end ZExplorer

namespace ZExplorer

/-- C2 (amended): when no phase-fatal error occurs (the workflow body
returns normally), the result carries exactly `count` prepared prompts,
and the seed list is index-aligned with the image list: a failed
per-image synthesis consumes a prepared prompt (and draws a seed) but
appends to neither `images` nor `seeds_used`. -/
theorem final_prompts_count_and_seed_balance (env : Env)
    (req : GenerationRequest) (st0 : St) (res : GenerationResult) (st2 : St)
    (h : generateBody env req (pushEvent st0 (evStage "starting")) = .ok (res, st2)) :
    generate env req st0 = (res, st2) ∧
    res.final_prompts.length = req.count ∧
    res.seeds_used.length = res.images.length := by
  refine ⟨by simp only [generate, h], ?_, ?_⟩
  · unfold generateBody at h
    split at h
    · exact absurd h (by simp)
    · dsimp only at h
      split at h
      · exact absurd h (by simp)
      · next prompts vars4 st4 heq =>
        simp only [Except.ok.injEq, Prod.mk.injEq] at h
        rw [← h.1]
        dsimp only
        rw [phase2Go_final_prompts]
        exact phase1Go_length env _ _ _ _ _ _ _ _ _ _ heq
  · unfold generateBody at h
    split at h
    · exact absurd h (by simp)
    · dsimp only at h
      split at h
      · exact absurd h (by simp)
      · next prompts vars4 st4 heq =>
        simp only [Except.ok.injEq, Prod.mk.injEq] at h
        rw [← h.1]
        dsimp only
        exact phase2Go_seed_balance env req prompts 0 _ _ rfl

/-- C2 counterexample: with a readable store and a failing image
engine, the one-image run finishes without a phase-fatal error, yet
`seeds_used` is empty instead of having length `count = 1` (while
`final_prompts` does reach length 1): a failed image appends no seed. -/
theorem seed_length_counterexample :
    generateBody envImgFail reqPlain (pushEvent (St.init []) (evStage "starting")) =
      .ok ((generate envImgFail reqPlain (St.init [])).1,
           (generate envImgFail reqPlain (St.init [])).2) ∧
    reqPlain.count = 1 ∧
    (generate envImgFail reqPlain (St.init [])).1.final_prompts.length = 1 ∧
    (generate envImgFail reqPlain (St.init [])).1.seeds_used.length = 0 :=
  ⟨by rfl, by decide, by decide, by decide⟩

/-- Witness for the amended C2 on the same failing-synthesis run. -/
theorem final_prompts_count_and_seed_balance_witness :
    generate envImgFail reqPlain (St.init []) =
      ((generate envImgFail reqPlain (St.init [])).1,
       (generate envImgFail reqPlain (St.init [])).2) ∧
    (generate envImgFail reqPlain (St.init [])).1.final_prompts.length =
      reqPlain.count ∧
    (generate envImgFail reqPlain (St.init [])).1.seeds_used.length =
      (generate envImgFail reqPlain (St.init [])).1.images.length :=
  final_prompts_count_and_seed_balance envImgFail reqPlain (St.init []) _ _ (by rfl)

end ZExplorer

namespace ZExplorer

/-! ## The embedded enhancement syntax (C7) -/

/-- C7 (amended): the `" > "` split applies exactly when the separator
occurs in the raw prompt — regardless of the request's explicit
enhancement fields, which are then overridden: the stripped text before
the first separator becomes the base prompt, the stripped text after it
becomes the instruction, and enhancement is enabled.  Without the
separator the explicit fields pass through unchanged. -/
theorem enh_syntax_resolution (prompt instruction : Str) (enhance : Bool) :
    (∀ pre post, splitFirst enhSep prompt = some (pre, post) →
      parseEnhancement prompt instruction enhance =
        (stripStr pre, stripStr post, true)) ∧
    (splitFirst enhSep prompt = none →
      parseEnhancement prompt instruction enhance =
        (prompt, instruction, enhance)) := by
  constructor
  · intro pre post h
    simp [parseEnhancement, h]
  · intro h
    simp [parseEnhancement, h]

/-- Witness for C7 on a prompt with and one without the separator. -/
theorem enh_syntax_resolution_witness :
    parseEnhancement (str "a cat > make it magical") (str "x") false =
      (stripStr (str "a cat"), stripStr (str "make it magical"), true) ∧
    parseEnhancement (str "a cat") (str "x") true =
      (str "a cat", str "x", true) :=
  ⟨(enh_syntax_resolution (str "a cat > make it magical") (str "x") false).1
      (str "a cat") (str "make it magical") (by rfl),
   (enh_syntax_resolution (str "a cat") (str "x") true).2 (by rfl)⟩

/-- C7 counterexample: the request already carries an explicit
instruction "c" (the caller has split base and instruction), yet the
embedded syntax in the prompt is still resolved and the explicit
instruction is overridden by "b". -/
theorem enh_syntax_override_counterexample :
    parseEnhancement (str "a > b") (str "c") true = (str "a", str "b", true) ∧
    str "b" ≠ str "c" :=
  ⟨by rfl, by decide⟩

/-! ## Enhancement failure (C6) -/

/-- C6 (amended): when the text engine raises inside the enhancement
step, the step returns its input unchanged and records an `error` event,
and the batch continues (the phase returns normally) — but at the
workflow call site that input already carries the appended enhancement
directive when the instruction is non-empty, so the recorded prompt is
the directive-augmented base, not the bare base prompt. -/
theorem enhancement_failure_keeps_input (env : Env) (base ins : Str)
    (vars : VarMap) (st : St) (e : String)
    (h1 : findTokens base = [])
    (h2 : ins.isEmpty = false)
    (h3 : env.loadVars st.loadK = none)
    (h4 : env.enhanceLLM st.enhK (base ++ directiveSep ++ ins) ins = .error e) :
    phase1Go env base ins true 0 1 vars st =
      .ok ([base ++ directiveSep ++ ins],
        storeVars st.store,
        { st with
          loadK := st.loadK + 1
          enhK := st.enhK + 1
          events := st.events ++ [evStage "enhancing", evStage "error"] }) := by
  rcases st with ⟨store, events, rngK, genVK, saveK, loadK, enhK, unloadK, imgK⟩
  dsimp only at h3 h4
  simp only [phase1Go, phase1Step, substVars_nil env base vars true _ h1,
    loadVarsE, h3, h2, enhancePrompt, pushEvent, if_true, if_false,
    Bool.false_eq_true]
  rw [h4]
  simp

/-- Witness for the amended C6 at a concrete failing enhancement. -/
theorem enhancement_failure_keeps_input_witness :
    phase1Go envEnhFail (str "a") (str "b") true 0 1 [] (St.init []) =
      .ok ([str "a" ++ directiveSep ++ str "b"], [],
        { St.init [] with
          loadK := 1
          enhK := 1
          events := [evStage "enhancing", evStage "error"] }) :=
  enhancement_failure_keeps_input envEnhFail (str "a") (str "b") [] (St.init [])
    "LLM down" (by decide) (by decide) (by rfl) (by rfl)

/-- C6 counterexample: base prompt "a", explicit instruction "b", the
engine raises — the recorded final prompt is the directive-augmented
string, not the original base prompt "a". -/
theorem enhancement_failure_counterexample :
    (generate envEnhFail reqExplicitEnh (St.init [])).1.final_prompts =
      [str "a\n\nEnhancement instruction: b"] ∧
    str "a\n\nEnhancement instruction: b" ≠ str "a" :=
  ⟨by rfl, by decide⟩

end ZExplorer

namespace ZExplorer

/-! ## Missing-variable generation yielding no values (C5) -/

/-- C5 (amended): with missing-generation enabled and an unknown token,
when requesting candidate values yields no values the token is left
unresolved with its text unchanged and nothing is saved — but an `error`
event is emitted only when the generation call raises; when the call
fail-softly returns an empty list, no event at all follows
`var_missing`/`var_generating`. -/
theorem no_values_leaves_token (env : Env) (p : Str) (vars : VarMap)
    (st : St) (tok : Str)
    (hf : findTokens p = [tok])
    (hl : lookupVar vars tok = none)
    (hg : (∃ e, env.genValues st.genVK (stripChar '_' tok) p = .error e) ∨
          env.genValues st.genVK (stripChar '_' tok) p = .ok []) :
    (substVars env p vars true st).1 = p ∧
    (substVars env p vars true st).2.1 = vars ∧
    (substVars env p vars true st).2.2.store = st.store ∧
    ((∃ e, env.genValues st.genVK (stripChar '_' tok) p = .error e ∧
        (substVars env p vars true st).2.2.events =
          st.events ++ [evTok "var_missing" tok, evTok "var_generating" tok,
            evTok "error" tok]) ∨
      (env.genValues st.genVK (stripChar '_' tok) p = .ok [] ∧
        (substVars env p vars true st).2.2.events =
          st.events ++ [evTok "var_missing" tok, evTok "var_generating" tok])) := by
  rcases st with ⟨store, events, rngK, genVK, saveK, loadK, enhK, unloadK, imgK⟩
  dsimp only at hg ⊢
  simp only [substVars, hf, List.isEmpty_cons, Bool.false_eq_true, if_false,
    substVarsGo, hl, pushEvent]
  rcases hg with ⟨e, he⟩ | he <;>
    simp [he, substVarsGo, substOne, hl, pushEvent]

/-- Witness for the amended C5: the generation call fail-softly returns
no values; the token stays, nothing is saved, and only `var_missing` and
`var_generating` are emitted. -/
theorem no_values_leaves_token_witness :
    (substVars envNoValues (str "a __q__") [] true (St.init [])).1 =
      str "a __q__" ∧
    (substVars envNoValues (str "a __q__") [] true (St.init [])).2.1 = [] ∧
    (substVars envNoValues (str "a __q__") [] true (St.init [])).2.2.store =
      (St.init []).store ∧
    ((∃ e, envNoValues.genValues (St.init []).genVK
        (stripChar '_' (str "__q__")) (str "a __q__") = .error e ∧
        (substVars envNoValues (str "a __q__") [] true (St.init [])).2.2.events =
          (St.init []).events ++ [evTok "var_missing" (str "__q__"),
            evTok "var_generating" (str "__q__"), evTok "error" (str "__q__")]) ∨
      (envNoValues.genValues (St.init []).genVK
        (stripChar '_' (str "__q__")) (str "a __q__") = .ok [] ∧
        (substVars envNoValues (str "a __q__") [] true (St.init [])).2.2.events =
          (St.init []).events ++ [evTok "var_missing" (str "__q__"),
            evTok "var_generating" (str "__q__")])) :=
  no_values_leaves_token envNoValues (str "a __q__") [] (St.init [])
    (str "__q__") (by decide) (by decide) (Or.inr (by rfl))

/-- C5 counterexample: the generation call yields no values (fail-soft
empty list), the token is left unresolved — but no `error` event is
emitted, contradicting the claim that one is. -/
theorem no_values_no_error_event_counterexample :
    (substVars envNoValues (str "a __q__") [] true (St.init [])).1 =
      str "a __q__" ∧
    envNoValues.genValues 0 (str "q") (str "a __q__") = .ok [] ∧
    ((substVars envNoValues (str "a __q__") [] true (St.init [])).2.2.events.map
      Event.stage) = ["var_missing", "var_generating"] ∧
    ((substVars envNoValues (str "a __q__") [] true (St.init [])).2.2.events.all
      (fun ev => ev.stage != "error")) = true :=
  ⟨by rfl, by rfl, by rfl, by decide⟩

end ZExplorer

namespace ZExplorer

/-! ## Save/load round trip of the variable store (C4) -/

/-- Dropping a predicate from the end of `xs ++ [c]` keeps `c` in front
of the reversal when `c` does not satisfy the predicate. -/
theorem dropWhile_append_singleton (f : Char → Bool) (c : Char)
    (hc : f c = false) :
    ∀ xs : Str, ∃ t, (List.dropWhile f (xs ++ [c])).reverse = c :: t := by
  intro xs
  induction xs with
  | nil => exact ⟨[], by simp [List.dropWhile, hc]⟩
  | cons x rest ih =>
    by_cases hx : f x
    · simpa [List.dropWhile, hx] using ih
    · exact ⟨rest.reverse ++ [x], by simp [List.dropWhile, hx]⟩

/-- Stripping keeps a non-whitespace head character in place. -/
theorem stripStr_head (c : Char) (l : Str) (hc : c.isWhitespace = false) :
    ∃ t, stripStr (c :: l) = c :: t := by
  unfold stripStr
  rw [List.dropWhile_cons_of_neg (by simp [hc])]
  have h1 : (c :: l).reverse = l.reverse ++ [c] := by simp
  rw [h1]
  obtain ⟨t, ht⟩ := dropWhile_append_singleton Char.isWhitespace c hc l.reverse
  exact ⟨t, ht⟩

/-- A map that is pointwise the identity is the identity. -/
theorem map_id_of_mem {α : Type} (f : α → α) :
    ∀ l : List α, (∀ a ∈ l, f a = a) → l.map f = l := by
  intro l
  induction l with
  | nil => intro _; rfl
  | cons x rest ih =>
    intro h
    simp only [List.map_cons]
    rw [h x (by simp), ih (fun a ha => h a (by simp [ha]))]

/-- A string without the separator splits into itself. -/
theorem splitLines_no_nl : ∀ l : Str, nl ∉ l → splitLines l = [l] := by
  intro l
  induction l with
  | nil => intro _; rfl
  | cons c rest ih =>
    intro h
    have hc : c ≠ nl := fun hc => h (by simp [hc])
    have h2 := ih (fun hm => h (by simp [hm]))
    simp [splitLines, hc, h2]

/-- Splitting after a separator-free prefix peels it off. -/
theorem splitLines_append (rest : Str) :
    ∀ l : Str, nl ∉ l → splitLines (l ++ nl :: rest) = l :: splitLines rest := by
  intro l
  induction l with
  | nil => simp [splitLines]
  | cons c t ih =>
    intro h
    have hc : c ≠ nl := fun hc => h (by simp [hc])
    have h2 := ih (fun hm => h (by simp [hm]))
    simp [splitLines, hc, h2]

/-- `splitLines` inverts `joinLines` on non-empty lists of
separator-free lines. -/
theorem splitLines_joinLines :
    ∀ lines : List Str, lines ≠ [] → (∀ l ∈ lines, nl ∉ l) →
    splitLines (joinLines lines) = lines := by
  intro lines
  induction lines with
  | nil => intro h _; exact absurd rfl h
  | cons x rest ih =>
    intro _ h
    cases rest with
    | nil => exact splitLines_no_nl x (h x (by simp))
    | cons y t =>
      simp only [joinLines]
      rw [splitLines_append _ x (h x (by simp))]
      rw [ih (by simp) (fun l hl => h l (by simp [hl]))]

/-- The value list read back by the parse step, written without the
intermediate bindings. -/
theorem parseVarFile_values (content : Str) :
    (parseVarFile content).values =
      (((splitLines content).map stripStr).filter
        (fun l => !l.isEmpty)).filter (fun l => l.head? != some '#') := rfl

/-- The saved value list survives the parse step verbatim when the
description is separator-free and every value is well formed. -/
theorem parse_save_values (d : Str) (values : List Str)
    (hd : nl ∉ d)
    (hv : ∀ v ∈ values, wellFormedValue v = true) :
    (parseVarFile (saveContent d values)).values = values := by
  have hstrip : ∀ v ∈ values, stripStr v = v := by
    intro v hm
    have := hv v hm
    simp only [wellFormedValue, Bool.and_eq_true, beq_iff_eq] at this
    exact this.1.1.2
  have hne : ∀ v ∈ values, v.isEmpty = false := by
    intro v hm
    have := hv v hm
    simp only [wellFormedValue, Bool.and_eq_true, Bool.not_eq_true'] at this
    exact this.1.1.1
  have hhash : ∀ v ∈ values, (v.head? != some '#') = true := by
    intro v hm
    have := hv v hm
    simp only [wellFormedValue, Bool.and_eq_true] at this
    exact this.1.2
  have hvnl : ∀ v ∈ values, nl ∉ v := by
    intro v hm
    have := hv v hm
    simp only [wellFormedValue, Bool.and_eq_true, Bool.not_eq_true'] at this
    simpa using this.2
  have hP1 : List.filter (fun l => !l.isEmpty) values = values :=
    List.filter_eq_self.mpr (fun a ha => by simp [hne a ha])
  have hP2 : List.filter (fun l => l.head? != some '#') values = values :=
    List.filter_eq_self.mpr (fun a ha => by simpa using hhash a ha)
  rw [parseVarFile_values]
  by_cases hde : d.isEmpty
  · cases values with
    | nil =>
      rw [show saveContent d [] = [] by simp [saveContent, hde, joinLines]]
      rfl
    | cons v vs =>
      rw [show saveContent d (v :: vs) = joinLines (v :: vs) by
        simp [saveContent, hde]]
      rw [splitLines_joinLines (v :: vs) (by simp) hvnl]
      rw [map_id_of_mem stripStr (v :: vs) hstrip, hP1, hP2]
  · rw [show saveContent d values = joinLines ((str "# " ++ d) :: values) by
      simp [saveContent, hde]]
    have hdl : nl ∉ str "# " ++ d := by
      intro hm
      rcases List.mem_append.mp hm with h1 | h1
      · simp [str, nl] at h1
      · exact hd h1
    have hlines : ∀ l ∈ (str "# " ++ d) :: values, nl ∉ l := by
      intro l hl
      rcases List.mem_cons.mp hl with rfl | hl
      · exact hdl
      · exact hvnl l hl
    rw [splitLines_joinLines _ (by simp) hlines]
    obtain ⟨t, ht⟩ := stripStr_head '#' (str " " ++ d) (by decide)
    simp only [List.map_cons]
    rw [show stripStr (str "# " ++ d) = '#' :: t from ht]
    rw [map_id_of_mem stripStr values hstrip]
    have hA : List.filter (fun l => !l.isEmpty) (('#' :: t) :: values) =
        ('#' :: t) :: values := by
      simp [List.filter_cons, hP1]
    have hB : List.filter (fun l => l.head? != some '#')
        (('#' :: t) :: values) = values := by
      simp [List.filter_cons, hP2]
    rw [hA, hB]

end ZExplorer

namespace ZExplorer

/-- `random.choice` on a two-element list yields one of the two. -/
theorem pyChoice_two (env : Env) (st : St) (a b : Str) :
    (pyChoice env st [a, b]).1 = a ∨ (pyChoice env st [a, b]).1 = b := by
  unfold pyChoice
  rcases Nat.mod_two_eq_zero_or_one (env.rng st.rngK) with h | h <;>
    simp [h, List.getD]

/-- The per-match loop on matches that are all bound to the two-valued
variable: each occurrence is replaced, in order, by one of the two
values, one `substituting` event per occurrence, and nothing else
changes. -/
theorem substVarsGo_known (env : Env) (p0 : Str) (gm : Bool) (vars : VarMap)
    (pv : PromptVars) (a b : Str) (hv : pv.values = [a, b]) :
    ∀ (ms : List Str) (acc : Str) (st : St),
    (∀ t ∈ ms, lookupVar vars t = some pv) →
    ∃ prs : List (Str × Str),
      prs.map Prod.fst = ms ∧
      (∀ pr ∈ prs, pr.2 = a ∨ pr.2 = b) ∧
      substVarsGo env p0 gm ms acc vars st =
        (replacePairs acc prs, vars,
         { st with
           events := st.events ++ prs.map (fun pr => evSubst pr.1 pr.2)
           rngK := st.rngK + ms.length }) := by
  intro ms
  induction ms with
  | nil =>
    intro acc st _
    exact ⟨[], rfl, by simp, by simp [substVarsGo, replacePairs]⟩
  | cons m rest ih =>
    intro acc st hms
    have hm := hms m (by simp)
    have hrest : ∀ t ∈ rest, lookupVar vars t = some pv :=
      fun t htm => hms t (by simp [htm])
    obtain ⟨prs, h1, h2, h3⟩ := ih (replaceFirst m (pyChoice env st [a, b]).1 acc)
      (pushEvent (pyChoice env st [a, b]).2 (evSubst m (pyChoice env st [a, b]).1))
      hrest
    refine ⟨(m, (pyChoice env st [a, b]).1) :: prs, by simp [h1], ?_, ?_⟩
    · intro pr hpr
      rcases List.mem_cons.mp hpr with rfl | hpr
      · exact pyChoice_two env st a b
      · exact h2 pr hpr
    · have hso : substOne env p0 gm m acc vars st =
          (replaceFirst m (pyChoice env st [a, b]).1 acc, vars,
           pushEvent (pyChoice env st [a, b]).2
             (evSubst m (pyChoice env st [a, b]).1)) := by
        simp [substOne, hm, hv]
      rcases st with ⟨store, events, rngK, genVK, saveK, loadK, enhK, unloadK, imgK⟩
      simp only [substVarsGo, hso]
      rw [h3]
      simp [pushEvent, pyChoice, replacePairs, List.append_assoc,
        Nat.add_comm, Nat.add_assoc, Nat.add_left_comm]

/-- C4 (amended): a variable `x` saved with description `d` and values
`[a, b]` — the description free of newlines and each value well formed
(non-empty, stripped, not a `#` comment, newline-free) — and immediately
reloaded resolves every `__x__` occurrence in a prompt to either `a` or
`b`, emitting one `substituting` event per occurrence and no
`var_missing` event, and leaving store and mapping untouched. -/
theorem saved_variable_roundtrip_substitution (x d a b p : Str) (env : Env)
    (st : St)
    (hd : nl ∉ d)
    (ha : wellFormedValue a = true) (hb : wellFormedValue b = true)
    (htoks : ∀ t ∈ findTokens p, t = str "__" ++ x ++ str "__")
    (hstore : st.store = savePromptVar [] x d [a, b]) :
    ∃ prs : List (Str × Str),
      prs.map Prod.fst = findTokens p ∧
      (∀ pr ∈ prs, pr.2 = a ∨ pr.2 = b) ∧
      substVars env p (storeVars st.store) true st =
        (replacePairs p prs, storeVars st.store,
         { st with
           events := st.events ++ prs.map (fun pr => evSubst pr.1 pr.2)
           rngK := st.rngK + (findTokens p).length }) := by
  have hv : (parseVarFile (saveContent d [a, b])).values = [a, b] :=
    parse_save_values d [a, b] hd (by
      intro v hm
      rcases List.mem_cons.mp hm with rfl | hm
      · exact ha
      · rcases List.mem_cons.mp hm with rfl | hm
        · exact hb
        · exact absurd hm (List.not_mem_nil v))
  have hsv : storeVars st.store =
      [(str "__" ++ x ++ str "__", parseVarFile (saveContent d [a, b]))] := by
    rw [hstore]
    rfl
  have hlook : ∀ t ∈ findTokens p,
      lookupVar (storeVars st.store) t =
        some (parseVarFile (saveContent d [a, b])) := by
    intro t ht
    rw [htoks t ht, hsv]
    simp [lookupVar, List.find?]
  by_cases hf : (findTokens p).isEmpty
  · rw [List.isEmpty_iff] at hf
    refine ⟨[], by simp [hf], by simp, ?_⟩
    rw [substVars_nil env p _ true st hf]
    simp [replacePairs, hf]
  · obtain ⟨prs, h1, h2, h3⟩ := substVarsGo_known env p true
      (storeVars st.store) (parseVarFile (saveContent d [a, b])) a b hv
      (findTokens p) p st hlook
    refine ⟨prs, h1, h2, ?_⟩
    rw [show substVars env p (storeVars st.store) true st =
      substVarsGo env p true (findTokens p) p (storeVars st.store) st by
        simp [substVars, hf]]
    exact h3

/-- Witness for the amended C4: `__x__` saved as ["cat", "dog"],
reloaded, substituted twice in one prompt. -/
theorem saved_variable_roundtrip_substitution_witness :
    nl ∉ str "desc" ∧
    (∃ prs : List (Str × Str),
      prs.map Prod.fst = findTokens (str "a __x__ and __x__") ∧
      (∀ pr ∈ prs, pr.2 = str "cat" ∨ pr.2 = str "dog") ∧
      substVars envOk (str "a __x__ and __x__")
        (storeVars (St.init (savePromptVar [] (str "x") (str "desc")
          [str "cat", str "dog"])).store) true
        (St.init (savePromptVar [] (str "x") (str "desc")
          [str "cat", str "dog"])) =
        (replacePairs (str "a __x__ and __x__") prs,
         storeVars (St.init (savePromptVar [] (str "x") (str "desc")
           [str "cat", str "dog"])).store,
         { St.init (savePromptVar [] (str "x") (str "desc")
             [str "cat", str "dog"]) with
           events := [] ++ prs.map (fun pr => evSubst pr.1 pr.2)
           rngK := 0 + (findTokens (str "a __x__ and __x__")).length })) :=
  ⟨by decide,
   saved_variable_roundtrip_substitution (str "x") (str "desc") (str "cat")
     (str "dog") (str "a __x__ and __x__") envOk _ (by decide) (by decide)
     (by decide) (by decide) rfl⟩

/-- C4 counterexample: values `["#", "#"]` are swallowed by the store's
comment syntax on reload, so the token resolves to neither saved value —
it stays unresolved (`"a __x__"`, not `"a #"`) even though no
`var_missing` event fires. -/
theorem roundtrip_counterexample :
    (substVars envOk (str "a __x__")
      (storeVars (savePromptVar [] (str "x") (str "d") [str "#", str "#"]))
      true (St.init (savePromptVar [] (str "x") (str "d")
        [str "#", str "#"]))).1 = str "a __x__" ∧
    str "a __x__" ≠
      replaceFirst (str "__x__") (str "#") (str "a __x__") :=
  ⟨by rfl, by decide⟩

end ZExplorer

namespace ZExplorer

/-! ## Event-stream monotonicity and the ordering property (C8) -/

/-- Emitting appends: the old stream is a prefix. -/
theorem pushEvent_events_mono (st : St) (e : Event) :
    List.IsPrefix st.events (pushEvent st e).events :=
  List.prefix_append st.events [e]

/-- The step-callback events only extend the stream. -/
theorem emitSteps_events_mono : ∀ (n : Nat) (st : St),
    List.IsPrefix st.events (emitSteps n st).events := by
  intro n
  induction n with
  | zero => intro st; exact List.prefix_refl _
  | succ m ih =>
    intro st
    exact List.IsPrefix.trans (pushEvent_events_mono st _) (ih _)

/-- Seed selection emits nothing. -/
theorem pickSeed_events (env : Env) (req : GenerationRequest) (st : St) :
    (pickSeed env req st).2.events = st.events := by
  unfold pickSeed
  cases req.seed <;> rfl

/-- One substitution step only extends the stream. -/
theorem substOne_events_mono (env : Env) (p0 : Str) (gm : Bool)
    (tok acc : Str) (vars : VarMap) (st : St) :
    List.IsPrefix st.events (substOne env p0 gm tok acc vars st).2.2.events := by
  unfold substOne
  dsimp only
  split
  · split
    · simp
    · simp [pushEvent, pyChoice, List.prefix_append]
  · split
    · split
      · simp [pushEvent, List.append_assoc, List.prefix_append]
      · split
        · simp [pushEvent, List.append_assoc, List.prefix_append]
        · split
          · simp [pushEvent, List.append_assoc, List.prefix_append]
          · split
            · simp [pushEvent, pyChoice, List.append_assoc, List.prefix_append]
            · simp [pushEvent, pyChoice, List.append_assoc, List.prefix_append]
    · simp

/-- The substitution loop only extends the stream. -/
theorem substVarsGo_events_mono (env : Env) (p0 : Str) (gm : Bool) :
    ∀ (ms : List Str) (acc : Str) (vars : VarMap) (st : St),
    List.IsPrefix st.events
      (substVarsGo env p0 gm ms acc vars st).2.2.events := by
  intro ms
  induction ms with
  | nil => intro acc vars st; exact List.prefix_refl _
  | cons tok rest ih =>
    intro acc vars st
    simp only [substVarsGo]
    exact List.IsPrefix.trans (substOne_events_mono env p0 gm tok acc vars st)
      (ih _ _ _)

/-- `_substitute_variables` only extends the stream. -/
theorem substVars_events_mono (env : Env) (p : Str) (vars : VarMap)
    (gm : Bool) (st : St) :
    List.IsPrefix st.events (substVars env p vars gm st).2.2.events := by
  unfold substVars
  dsimp only
  split
  · exact List.prefix_refl _
  · exact substVarsGo_events_mono env p gm _ p vars st

/-- `_enhance_prompt` only extends the stream. -/
theorem enhancePrompt_events_mono (env : Env) (pr ins : Str) (st : St) :
    List.IsPrefix st.events (enhancePrompt env pr ins st).2.events := by
  unfold enhancePrompt
  dsimp only
  split <;> simp [pushEvent, List.append_assoc, List.prefix_append]

/-- A successful `load_prompt_vars` call at the workflow level. -/
theorem loadVarsE_ok (env : Env) (st : St)
    (h : env.loadVars st.loadK = none) :
    loadVarsE env st =
      .ok (storeVars st.store, { st with loadK := st.loadK + 1 }) := by
  simp [loadVarsE, h]

/-- When every store read succeeds, one phase-1 step returns normally
and only extends the stream. -/
theorem phase1Step_ok_events (env : Env) (base ins : Str) (he : Bool)
    (hl : ∀ k, env.loadVars k = none) (i : Nat) (vars : VarMap) (st : St) :
    ∃ out, phase1Step env base ins he i vars st = .ok out ∧
      List.IsPrefix st.events out.2.2.events := by
  have hsub := substVars_events_mono env base vars true st
  unfold phase1Step
  dsimp only
  by_cases hi : i = 0
  · rw [if_pos hi, loadVarsE_ok env (substVars env base vars true st).2.2 (hl _)]
    dsimp only
    by_cases hhe : he
    · rw [if_pos hhe]
      refine ⟨_, rfl, hsub.trans ?_⟩
      exact enhancePrompt_events_mono env _ ins
        { (substVars env base vars true st).2.2 with
          loadK := (substVars env base vars true st).2.2.loadK + 1 }
    · rw [if_neg hhe]
      exact ⟨_, rfl, hsub⟩
  · rw [if_neg hi]
    dsimp only
    by_cases hhe : he
    · rw [if_pos hhe]
      refine ⟨_, rfl, hsub.trans ?_⟩
      exact enhancePrompt_events_mono env _ ins
        (substVars env base vars true st).2.2
    · rw [if_neg hhe]
      exact ⟨_, rfl, hsub⟩

/-- When every store read succeeds, phase 1 returns normally and only
extends the stream. -/
theorem phase1Go_ok_events (env : Env) (base ins : Str) (he : Bool)
    (hl : ∀ k, env.loadVars k = none) :
    ∀ (r i : Nat) (vars : VarMap) (st : St),
    ∃ res, phase1Go env base ins he i r vars st = .ok res ∧
      List.IsPrefix st.events res.2.2.events := by
  intro r
  induction r with
  | zero => intro i vars st; exact ⟨([], vars, st), rfl, List.prefix_refl _⟩
  | succ n ih =>
    intro i vars st
    obtain ⟨⟨p, v2, s2⟩, hstep, hpre1⟩ := phase1Step_ok_events env base ins he hl i vars st
    obtain ⟨⟨ps, v3, s3⟩, hrec, hpre2⟩ := ih (i + 1) v2 s2
    exact ⟨(p :: ps, v3, s3), by simp only [phase1Go, hstep, hrec],
      hpre1.trans hpre2⟩

end ZExplorer

namespace ZExplorer

/-- One phase-2 iteration only extends the stream. -/
theorem phase2Step_events_mono (env : Env) (req : GenerationRequest)
    (i : Nat) (p : Str) (res : GenerationResult) (st : St) :
    List.IsPrefix st.events (phase2Step env req i p res st).2.events := by
  unfold phase2Step
  dsimp only
  set st2 := pushEvent (pushEvent st { stage := "final_prompt", value := some p })
    (evStage "generating_image") with hst2
  set s := pickSeed env req st2 with hs
  set st3 : St := { s.2 with imgK := s.2.imgK + 1 } with hst3
  have h2 : List.IsPrefix st.events st2.events := by
    rw [hst2]
    simp [pushEvent, List.append_assoc, List.prefix_append]
  have h3 : List.IsPrefix st.events st3.events := by
    have hmid : List.IsPrefix st.events s.2.events := by
      rw [hs, pickSeed_events]
      exact h2
    exact hmid
  split <;>
    exact (h3.trans (emitSteps_events_mono _ st3)).trans
      (pushEvent_events_mono _ _)

/-- Phase 2 only extends the stream. -/
theorem phase2Go_events_mono (env : Env) (req : GenerationRequest) :
    ∀ (ps : List Str) (i : Nat) (res : GenerationResult) (st : St),
    List.IsPrefix st.events (phase2Go env req i ps res st).2.events := by
  intro ps
  induction ps with
  | nil => intro i res st; exact List.prefix_refl _
  | cons p rest ih =>
    intro i res st
    simp only [phase2Go]
    exact (phase2Step_events_mono env req i p res st).trans (ih _ _ _)

/-- The full success path of one missing-variable resolution: values
are generated, saved, one value substituted for the single occurrence,
and the mapping refreshed; the four events `var_missing`,
`var_generating`, `var_saved`, `substituting` are emitted in order. -/
theorem substVars_missing_success (env : Env) (p : Str) (vars : VarMap)
    (st : St) (tok : Str) (vs : List Str)
    (hf : findTokens p = [tok])
    (hl : lookupVar vars tok = none)
    (hg : env.genValues st.genVK (stripChar '_' tok) p = .ok vs)
    (hvs : vs.isEmpty = false)
    (hsave : env.saveVar st.saveK = none)
    (hload : env.loadVars st.loadK = none) :
    ∃ repl vars2,
      substVars env p vars true st =
        (replaceFirst tok repl p, vars2,
         { st with
           store := savePromptVar st.store (stripChar '_' tok)
             (str "Auto-generated values for " ++ stripChar '_' tok) vs
           events := st.events ++ [evTok "var_missing" tok,
             evTok "var_generating" tok, evTok "var_saved" tok,
             evSubst tok repl]
           rngK := st.rngK + 1
           genVK := st.genVK + 1
           saveK := st.saveK + 1
           loadK := st.loadK + 1 }) := by
  rcases st with ⟨store, events, rngK, genVK, saveK, loadK, enhK, unloadK, imgK⟩
  dsimp only at hg hsave hload ⊢
  refine ⟨vs.getD (env.rng rngK % vs.length) [],
    updateMap vars (storeVars (savePromptVar store (stripChar '_' tok)
      (str "Auto-generated values for " ++ stripChar '_' tok) vs)), ?_⟩
  simp only [substVars, hf, List.isEmpty_cons, Bool.false_eq_true, if_false,
    substVarsGo, substOne, hl, pushEvent]
  rw [hg]
  simp only [hvs, Bool.false_eq_true, if_false, hsave, hload]
  simp [pyChoice, pushEvent, List.append_assoc, hload]

end ZExplorer

namespace ZExplorer

/-- The unload block only extends the stream. -/
theorem unloadStep_events_mono (env : Env) (cond : Bool) (st : St) :
    List.IsPrefix st.events (unloadStep env cond st).events := by
  unfold unloadStep
  dsimp only
  split
  · split
    · exact List.prefix_refl _
    · exact pushEvent_events_mono _ _
  · exact List.prefix_refl _

/-- The first phase-1 step on a prompt with one unknown token, under a
cooperating environment: the step returns normally with the token
substituted, after emitting `var_missing`, `var_generating`,
`var_saved` and `substituting` in order. -/
theorem phase1Step_missing_success (env : Env) (base ins : Str)
    (vars : VarMap) (st : St) (tok : Str) (vs : List Str)
    (hf : findTokens base = [tok])
    (hl : lookupVar vars tok = none)
    (hg : env.genValues st.genVK (stripChar '_' tok) base = .ok vs)
    (hvs : vs.isEmpty = false)
    (hsave : env.saveVar st.saveK = none)
    (hload : ∀ k, env.loadVars k = none) :
    ∃ repl v2 stB,
      phase1Step env base ins false 0 vars st =
        .ok (replaceFirst tok repl base, v2, stB) ∧
      stB.events = st.events ++ [evTok "var_missing" tok,
        evTok "var_generating" tok, evTok "var_saved" tok,
        evSubst tok repl] := by
  obtain ⟨repl, v2, hsubst⟩ := substVars_missing_success env base vars st tok vs
    hf hl hg hvs hsave (hload _)
  refine ⟨repl,
    storeVars (savePromptVar st.store (stripChar '_' tok)
      (str "Auto-generated values for " ++ stripChar '_' tok) vs),
    { st with
      store := savePromptVar st.store (stripChar '_' tok)
        (str "Auto-generated values for " ++ stripChar '_' tok) vs
      events := st.events ++ [evTok "var_missing" tok,
        evTok "var_generating" tok, evTok "var_saved" tok, evSubst tok repl]
      rngK := st.rngK + 1
      genVK := st.genVK + 1
      saveK := st.saveK + 1
      loadK := st.loadK + 1 + 1 }, ?_, rfl⟩
  unfold phase1Step
  dsimp only
  rw [hsubst]
  dsimp only
  rw [if_pos rfl, loadVarsE_ok env _ (hload _)]
  rfl

end ZExplorer

namespace ZExplorer

/-- C8 (amended): for a request with `enhance=false` whose prompt
contains no `" > "` separator and exactly one token, with an unknown
identifier, run against an environment where the store reads and writes
succeed and value generation returns at least one value, the emitted
event sequence contains, in this order, the stages `starting`,
`loading_vars`, `var_missing`, `var_generating`, `var_saved`,
`substituting` and finally `complete`. -/
theorem ordering_unknown_token (env : Env) (req : GenerationRequest)
    (store : Store) (tok : Str) (vs : List Str)
    (h1 : req.enhance = false)
    (h2 : splitFirst enhSep req.prompt = none)
    (h3 : findTokens req.prompt = [tok])
    (h4 : lookupVar (storeVars store) tok = none)
    (h5 : env.genValues 0 (stripChar '_' tok) req.prompt = .ok vs)
    (h6 : vs.isEmpty = false)
    (h7 : ∀ k, env.loadVars k = none)
    (h8 : ∀ k, env.saveVar k = none)
    (h9 : 1 ≤ req.count) :
    List.Sublist
      ["starting", "loading_vars", "var_missing", "var_generating",
       "var_saved", "substituting", "complete"]
      ((generate env req (St.init store)).2.events.map Event.stage) := by
  have hpe : parseEnhancement req.prompt req.enhancement_instruction req.enhance =
      (req.prompt, req.enhancement_instruction, false) := by
    rw [h1]
    simp [parseEnhancement, h2]
  set ST1 := pushEvent (St.init store) (evStage "starting") with hST1
  set ST3 := pushEvent (pushEvent { ST1 with loadK := ST1.loadK + 1 }
    (evStage "loading_vars")) (evStage "phase1_complete") with hST3
  obtain ⟨repl, v2, stB, hstep, hBev⟩ := phase1Step_missing_success env req.prompt
    req.enhancement_instruction (storeVars ST1.store) ST3 tok vs h3 h4 h5 h6
    (h8 _) h7
  obtain ⟨n, hn⟩ : ∃ n, req.count = n + 1 := ⟨req.count - 1, by omega⟩
  obtain ⟨⟨ps, v3, stC⟩, hrec, hpreC⟩ := phase1Go_ok_events env req.prompt
    req.enhancement_instruction false h7 n (0 + 1) v2 stB
  have hp1 : phase1Go env req.prompt req.enhancement_instruction false 0 req.count
      (storeVars ST1.store) ST3 =
      .ok (replaceFirst tok repl req.prompt :: ps, v3, stC) := by
    rw [hn]
    simp only [phase1Go, hstep, hrec]
  have hbody : generateBody env req ST1 =
      .ok ((fun r2 => (({ r2.1 with success := !r2.1.images.isEmpty } :
              GenerationResult),
             pushEvent r2.2 (evStage "complete")))
           (phase2Go env req 0 (replaceFirst tok repl req.prompt :: ps)
             { final_prompts := replaceFirst tok repl req.prompt :: ps }
             (pushEvent (unloadStep env (decide (req.count > 1) || false) stC)
               (evStage "loading_image_model")))) := by
    simp only [generateBody, loadVarsE_ok env ST1 (h7 _), hpe]
    rw [hp1]
  have hgen : generate env req (St.init store) =
      ((fun r2 => (({ r2.1 with success := !r2.1.images.isEmpty } :
              GenerationResult),
             pushEvent r2.2 (evStage "complete")))
           (phase2Go env req 0 (replaceFirst tok repl req.prompt :: ps)
             { final_prompts := replaceFirst tok repl req.prompt :: ps }
             (pushEvent (unloadStep env (decide (req.count > 1) || false) stC)
               (evStage "loading_image_model")))) := by
    simp only [generate, hbody]
  have hchain : List.IsPrefix stB.events
      (phase2Go env req 0 (replaceFirst tok repl req.prompt :: ps)
        { final_prompts := replaceFirst tok repl req.prompt :: ps }
        (pushEvent (unloadStep env (decide (req.count > 1) || false) stC)
          (evStage "loading_image_model"))).2.events :=
    hpreC.trans ((unloadStep_events_mono env _ stC).trans
      ((pushEvent_events_mono _ _).trans
        (phase2Go_events_mono env req _ _ _ _)))
  obtain ⟨M, hM⟩ := hchain
  have hev : (generate env req (St.init store)).2.events =
      (stB.events ++ M) ++ [evStage "complete"] := by
    have h0 : (generate env req (St.init store)).2.events =
        (phase2Go env req 0 (replaceFirst tok repl req.prompt :: ps)
          { final_prompts := replaceFirst tok repl req.prompt :: ps }
          (pushEvent (unloadStep env (decide (req.count > 1) || false) stC)
            (evStage "loading_image_model"))).2.events ++ [evStage "complete"] := by
      rw [hgen]
      rfl
    rw [h0, ← hM]
  have hBev2 : stB.events =
      [evStage "starting", evStage "loading_vars", evStage "phase1_complete",
       evTok "var_missing" tok, evTok "var_generating" tok,
       evTok "var_saved" tok, evSubst tok repl] := by
    rw [hBev]
    rfl
  have hmap : (generate env req (St.init store)).2.events.map Event.stage =
      (["starting", "loading_vars", "phase1_complete", "var_missing",
        "var_generating", "var_saved", "substituting"] ++
        List.map Event.stage M) ++ ["complete"] := by
    rw [hev, hBev2]
    simp [evStage, evTok, evSubst]
  rw [hmap]
  show List.Sublist
    (["starting", "loading_vars", "var_missing", "var_generating",
      "var_saved", "substituting"] ++ ["complete"]) _
  refine List.Sublist.append ?_ (List.Sublist.refl _)
  exact List.Sublist.trans (by decide) (List.sublist_append_left _ _)

end ZExplorer

namespace ZExplorer

/-- Witness for the amended C8 at a concrete one-token request. -/
theorem ordering_unknown_token_witness :
    List.Sublist
      ["starting", "loading_vars", "var_missing", "var_generating",
       "var_saved", "substituting", "complete"]
      ((generate envOk { prompt := str "a __foo__", count := 1 }
        (St.init [])).2.events.map Event.stage) :=
  ordering_unknown_token envOk { prompt := str "a __foo__", count := 1 } []
    (str "__foo__") [str "vv"] rfl (by rfl) (by decide) (by rfl) (by rfl)
    (by rfl) (fun _ => rfl) (fun _ => rfl) (by decide)

/-- C8 counterexample: a request meeting the claim's conditions
(`enhance=false`, exactly one unknown token `__foo__`) whose prompt also
embeds the `" > "` syntax.  The token lands in the instruction part, the
base prompt "a" has no token, so no `var_missing` ever fires and the
claimed sequence is not a subsequence of the emitted stages, even under
a fully cooperating environment. -/
theorem ordering_sep_counterexample :
    findTokens reqSepToken.prompt = [str "__foo__"] ∧
    reqSepToken.enhance = false ∧
    lookupVar (storeVars []) (str "__foo__") = none ∧
    ¬ List.Sublist
      ["starting", "loading_vars", "var_missing", "var_generating",
       "var_saved", "substituting", "complete"]
      ((generate envOk reqSepToken (St.init [])).2.events.map Event.stage) :=
  ⟨by decide, rfl, rfl,
   fun h => absurd
     (h.subset (show ("var_missing" : String) ∈
       ["starting", "loading_vars", "var_missing", "var_generating",
        "var_saved", "substituting", "complete"] by decide))
     (by decide)⟩

end ZExplorer
